import Mathlib

/-!
Verification of the Computrabajo job-scraper extraction core
(src/main.js and the related actor revisions).

Part 1: calendar model for the JavaScript `Date` operations used by
`parseSpanishRelativeDateToISO`.  ECMAScript `Date` values are epoch
milliseconds; `getDate`/`setDate` go through the proleptic-Gregorian
civil calendar (`MakeDay`, `YearFromTime`, `MonthFromTime`,
`DateFromTime`), which we model with the standard day-count/civil
conversion.  The runtime is modeled in UTC (no DST), as on the servers
the actor targets.
-/

namespace CTScraper
/-- Civil-calendar components `(year-within-era + adjustment, month, day)`
from a day-of-era count `doe ∈ [0, 146097)`; the standard inner step of
the proleptic-Gregorian conversion implementing ECMAScript `Date`
component extraction. -/
def civilOfDoe (doe : Int) : Int × Int × Int :=
  let yoe := (doe - doe / 1460 + doe / 36524 - doe / 146096) / 365
  let doy := doe - (365 * yoe + yoe / 4 - yoe / 100)
  let mp := (5 * doy + 2) / 153
  let d := doy - (153 * mp + 2) / 5 + 1
  let m := if mp < 10 then mp + 3 else mp - 9
  (yoe + (if m ≤ 2 then 1 else 0), m, d)

/-- Day count (days since 1970-01-01) of a civil date `(y, m, d)`;
`d` may lie outside its month and is carried linearly, matching the
ECMAScript `MakeDay` normalization used by `Date.prototype.setDate`. -/
def daysFromCivil (y m d : Int) : Int :=
  let y2 := y - (if m ≤ 2 then 1 else 0)
  let era := y2 / 400
  let yoe := y2 % 400
  let mp := (m + 9) % 12
  let doy := (153 * mp + 2) / 5 + d - 1
  let doe := yoe * 365 + yoe / 4 - yoe / 100 + doy
  era * 146097 + doe - 719468

/-- Civil date of a day count, for any day count. -/
def civilFromDays (z : Int) : Int × Int × Int :=
  let z2 := z + 719468
  let era := z2 / 146097
  let c := civilOfDoe (z2 % 146097)
  (era * 400 + c.1, c.2.1, c.2.2)

def msPerDay : Int := 86400000

/-- `Date.prototype.getDate` (UTC model): day-of-month of the epoch value. -/
def jsGetDate (t : Int) : Int := (civilFromDays (t / msPerDay)).2.2

/-- `Date.prototype.setDate` (UTC model): rebuild the epoch value from the
same year/month and the given (possibly out-of-range) day-of-month. -/
def jsSetDate (t dt : Int) : Int :=
  daysFromCivil (civilFromDays (t / msPerDay)).1 (civilFromDays (t / msPerDay)).2.1 dt
    * msPerDay + t % msPerDay

/-! ## Part 2: string utilities and the date interpreter

`normText`, substring search, and hand-rolled matchers for the two regular
expressions of `parseSpanishRelativeDateToISO` (src/main.js lines 74-104).
-/

/-- JavaScript `\s` for the characters that occur in this data (plus NBSP,
which `normText` maps to a plain space first anyway). -/
def isJsWs (c : Char) : Bool :=
  c = ' ' || c = '\t' || c = '\n' || c = '\r' || c = '\x0b' || c = '\x0c' || c = ' '

/-- Maximal non-whitespace runs of a character list, in order. -/
def splitWsAux : List Char → List Char → List String
  | [], acc => if acc.isEmpty then [] else [String.mk acc.reverse]
  | c :: cs, acc =>
    if isJsWs c then
      if acc.isEmpty then splitWsAux cs [] else String.mk acc.reverse :: splitWsAux cs []
    else splitWsAux cs (c :: acc)

def joinSp : List String → String
  | [] => ""
  | [w] => w
  | w :: ws => w ++ " " ++ joinSp ws

/-- `normText` (src/main.js line 18): map NBSP to space, collapse whitespace
runs to single spaces, trim. -/
def normText (s : String) : String := joinSp (splitWsAux s.data [])

/-- `String.prototype.toLowerCase` (the data is ASCII-cased; accented Spanish
letters in it are already lowercase). -/
def toLowerStr (s : String) : String := String.mk (s.data.map Char.toLower)

/-- `normText` applied to a nullable string (`(s || '')`). -/
def normTextOpt (s : Option String) : String := normText (s.getD "")

def isPrefixOfL : List Char → List Char → Bool
  | [], _ => true
  | _ :: _, [] => false
  | p :: ps, c :: cs => p == c && isPrefixOfL ps cs

def containsSubAux (nd : List Char) : List Char → Bool
  | [] => isPrefixOfL nd []
  | c :: cs => isPrefixOfL nd (c :: cs) || containsSubAux nd cs

/-- JavaScript `String.prototype.includes` / regex literal-substring test. -/
def containsSub (hay needle : String) : Bool := containsSubAux needle.data hay.data

def idxOfSubAux (nd : List Char) : List Char → Nat → Option Nat
  | [], i => if isPrefixOfL nd [] then some i else none
  | c :: cs, i => if isPrefixOfL nd (c :: cs) then some i else idxOfSubAux nd cs (i + 1)

/-- JavaScript `String.prototype.indexOf` (as an `Option`; `-1` becomes `none`). -/
def idxOfSub (hay needle : String) : Option Nat := idxOfSubAux needle.data hay.data 0

def isDigitC (c : Char) : Bool := '0' ≤ c && c ≤ '9'

def digitsToNat (cs : List Char) : Nat := cs.foldl (fun a c => a * 10 + (c.toNat - 48)) 0

/-- Exactly `n` digits from the front. -/
def takeDigits : Nat → List Char → Option (List Char × List Char)
  | 0, cs => some ([], cs)
  | _ + 1, [] => none
  | n + 1, c :: cs =>
    if isDigitC c then (takeDigits n cs).map (fun p => (c :: p.1, p.2)) else none

/-- Match of `\d{4}-\d{2}-\d{2}(?:[ t]\d{2}:\d{2}(?::\d{2})?)?` anchored at the
start of the list, returning the matched characters (greedy optional parts). -/
def isoAt (cs : List Char) : Option (List Char) :=
  match takeDigits 4 cs with
  | none => none
  | some (y, r1) =>
    match r1 with
    | '-' :: r2 =>
      match takeDigits 2 r2 with
      | none => none
      | some (mo, r3) =>
        match r3 with
        | '-' :: r4 =>
          match takeDigits 2 r4 with
          | none => none
          | some (dy, r5) =>
            let base := y ++ '-' :: mo ++ '-' :: dy
            match r5 with
            | sep :: r6 =>
              if sep = ' ' || sep = 't' then
                match takeDigits 2 r6 with
                | some (hh, r7) =>
                  match r7 with
                  | ':' :: r8 =>
                    match takeDigits 2 r8 with
                    | some (mi, r9) =>
                      let witht := base ++ sep :: hh ++ ':' :: mi
                      match r9 with
                      | ':' :: r10 =>
                        match takeDigits 2 r10 with
                        | some (ss, _) => some (witht ++ ':' :: ss)
                        | none => some witht
                      | _ => some witht
                    | none => some base
                  | _ => some base
                | none => some base
              else some base
            | [] => some base
        | _ => none
    | _ => none

def findIsoAux : List Char → Option (List Char)
  | [] => none
  | c :: cs =>
    match isoAt (c :: cs) with
    | some m => some m
    | none => findIsoAux cs

/-- Leftmost match of the ISO-date regex in `s`. -/
def findIso (s : String) : Option String := (findIsoAux s.data).map String.mk

def daysInMonth (y m : Int) : Int :=
  if m = 2 then (if y % 4 = 0 && (y % 100 != 0 || y % 400 = 0) then 29 else 28)
  else if m = 4 || m = 6 || m = 9 || m = 11 then 30
  else 31

/-- `new Date(str)` on a string matched by the ISO regex: parse and validate
the components (out-of-range components give an invalid date, i.e. `none`),
UTC model. -/
def jsDateParse (s : String) : Option Int :=
  match takeDigits 4 s.data with
  | none => none
  | some (y, r1) =>
    match r1 with
    | '-' :: r2 =>
      match takeDigits 2 r2 with
      | none => none
      | some (mo, r3) =>
        match r3 with
        | '-' :: r4 =>
          match takeDigits 2 r4 with
          | none => none
          | some (dy, r5) =>
            let yv : Int := (digitsToNat y : Int)
            let mv : Int := (digitsToNat mo : Int)
            let dv : Int := (digitsToNat dy : Int)
            if 1 ≤ mv && mv ≤ 12 && 1 ≤ dv && dv ≤ daysInMonth yv mv then
              let base := daysFromCivil yv mv dv * msPerDay
              match r5 with
              | sep :: r6 =>
                if sep = ' ' || sep = 't' then
                  match takeDigits 2 r6 with
                  | some (hh, r7) =>
                    match r7 with
                    | ':' :: r8 =>
                      match takeDigits 2 r8 with
                      | some (mi, r9) =>
                        let hv : Int := (digitsToNat hh : Int)
                        let miv : Int := (digitsToNat mi : Int)
                        let sv : Int :=
                          match r9 with
                          | ':' :: r10 =>
                            match takeDigits 2 r10 with
                            | some (ss, _) => (digitsToNat ss : Int)
                            | none => 0
                          | _ => 0
                        if hv ≤ 23 && miv ≤ 59 && sv ≤ 59 then
                          some (base + hv * 3600000 + miv * 60000 + sv * 1000)
                        else none
                      | none => some base
                    | _ => some base
                  | none => some base
                else some base
              | [] => some base
            else none
        | _ => none
    | _ => none

def pad2 (n : Int) : String := if n < 10 then "0" ++ toString n else toString n

def pad3 (n : Int) : String :=
  if n < 10 then "00" ++ toString n else if n < 100 then "0" ++ toString n else toString n

def pad4 (n : Int) : String :=
  if n < 10 then "000" ++ toString n
  else if n < 100 then "00" ++ toString n
  else if n < 1000 then "0" ++ toString n
  else toString n

/-- `Date.prototype.toISOString` (UTC; years of the data are four-digit). -/
def toISOString (t : Int) : String :=
  let days := t / msPerDay
  let tod := t % msPerDay
  let c := civilFromDays days
  pad4 c.1 ++ "-" ++ pad2 c.2.1 ++ "-" ++ pad2 c.2.2 ++ "T" ++
    pad2 (tod / 3600000) ++ ":" ++ pad2 (tod % 3600000 / 60000) ++ ":" ++
    pad2 (tod % 60000 / 1000) ++ "." ++ pad3 (tod % 1000) ++ "Z"

def jsGetMonth (t : Int) : Int := (civilFromDays (t / msPerDay)).2.1 - 1

def jsGetFullYear (t : Int) : Int := (civilFromDays (t / msPerDay)).1

/-- `setMonth` (UTC model): ECMAScript `MakeDay` month normalization. -/
def jsSetMonth (t m0 : Int) : Int :=
  let c := civilFromDays (t / msPerDay)
  daysFromCivil (c.1 + m0 / 12) (m0 % 12 + 1) c.2.2 * msPerDay + t % msPerDay

def jsSetFullYear (t y : Int) : Int :=
  let c := civilFromDays (t / msPerDay)
  daysFromCivil y c.2.1 c.2.2 * msPerDay + t % msPerDay

/-- Whitespace `\s+`: one or more, greedy. -/
def ws1 : List Char → Option (List Char)
  | [] => none
  | c :: cs => if isJsWs c then some (cs.dropWhile isJsWs) else none

/-- `\d+`, greedy. -/
def digits1 (cs : List Char) : Option (String × List Char) :=
  let ds := cs.takeWhile isDigitC
  if ds.isEmpty then none else some (String.mk ds, cs.drop ds.length)

def dropPre (p : String) (cs : List Char) : Option (List Char) :=
  if isPrefixOfL p.data cs then some (cs.drop p.data.length) else none

/-- Unit alternatives, in the order of the source regex alternation. -/
def unitWords : List String :=
  ["minutos", "minuto", "horas", "hora", "días", "día",
   "semanas", "semana", "meses", "mes", "años", "año"]

def matchUnit (cs : List Char) : Option String :=
  (unitWords.find? (fun w => isPrefixOfL w.data cs))

def relTail (q : String) (rest : List Char) : Option (String × String) :=
  match ws1 rest with
  | none => none
  | some r2 => (matchUnit r2).map (fun u => (q, u))

/-- Match of `hace\s+(\d+|una|un)\s+(<units>)` anchored at the start,
with the backtracking order of the source alternation. -/
def relAt (cs : List Char) : Option (String × String) :=
  match dropPre "hace" cs with
  | none => none
  | some r1 =>
    match ws1 r1 with
    | none => none
    | some r2 =>
      match digits1 r2 with
      | some (q, r3) => relTail q r3
      | none =>
        match dropPre "una" r2 with
        | some r3 =>
          match relTail "una" r3 with
          | some res => some res
          | none =>
            match dropPre "un" r2 with
            | some r4 => relTail "un" r4
            | none => none
        | none =>
          match dropPre "un" r2 with
          | some r4 => relTail "un" r4
          | none => none

def findRelAux : List Char → Option (String × String)
  | [] => none
  | c :: cs =>
    match relAt (c :: cs) with
    | some r => some r
    | none => findRelAux cs

/-- Dispatch on the matched unit word and subtract, mirroring the
`d.setX(d.getX() - qty)` chain of the source (UTC model; `setMinutes`,
`setHours` reduce to exact millisecond subtraction by `MakeTime` linearity). -/
def relApply (now qty : Int) (unit : String) : Int :=
  if containsSub unit "minuto" then now - qty * 60000
  else if containsSub unit "hora" then now - qty * 3600000
  else if containsSub unit "día" then jsSetDate now (jsGetDate now - qty)
  else if containsSub unit "semana" then jsSetDate now (jsGetDate now - qty * 7)
  else if containsSub unit "mes" then jsSetMonth now (jsGetMonth now - qty)
  else if containsSub unit "año" then jsSetFullYear now (jsGetFullYear now - qty)
  else now

/-- `parseSpanishRelativeDateToISO` (src/main.js lines 74-104): lowercase,
try the absolute ISO pattern first (falling through when the parsed date is
invalid), then the Spanish relative pattern; `none` when neither applies.
`now` is the clock instant read by `new Date()` inside the function. -/
def parseSpanishRelativeDateToISO (s : String) (now : Int) : Option String :=
  let str := toLowerStr s
  if str = "" then none
  else
    let isoHit : Option Int :=
      match findIso str with
      | some m => jsDateParse m
      | none => none
    match isoHit with
    | some t => some (toISOString t)
    | none =>
      match findRelAux str.data with
      | none => none
      | some (q, u) =>
        let qty : Int := if q = "una" || q = "un" then 1 else (digitsToNat q.data : Int)
        some (toISOString (relApply now qty u))

/-! ## Part 3: JSON-LD structured data and the salary normalizer

JSON values as parsed by `JSON.parse`; a `<script type="application/ld+json">`
block is modeled by its parse outcome (`none` for an empty body or a parse
error).  Numbers in this data are integral.
-/

inductive JVal where
  | null
  | bool (b : Bool)
  | num (n : Int)
  | str (s : String)
  | arr (xs : List JVal)
  | obj (kvs : List (String × JVal))

/-- A structured-data block: `none` when its body is empty or `JSON.parse`
throws, otherwise the parsed value. -/
abbrev LdBlock := Option JVal

def lookupKV : List (String × JVal) → String → Option JVal
  | [], _ => none
  | (k', v) :: rest, k => if k' = k then some v else lookupKV rest k

/-- JavaScript property access `o[k]` (`none` = `undefined`). -/
def getJ : JVal → String → Option JVal
  | .obj kvs, k => lookupKV kvs k
  | _, _ => none

/-- JavaScript truthiness of a JSON value. -/
def jvTruthy : JVal → Bool
  | .null => false
  | .bool b => b
  | .num n => n != 0
  | .str s => s ≠ ""
  | .arr _ => true
  | .obj _ => true

/-- `a || b` on possibly-undefined values. -/
def jsOrJ (a b : Option JVal) : Option JVal :=
  match a with
  | some v => if jvTruthy v then some v else b
  | none => b

/-- `x ?? null`-then-`!= null`: the value unless it is `undefined` or `null`. -/
def presentJ : Option JVal → Option JVal
  | some .null => none
  | x => x

/-- Keep a value only if truthy (`if (x) ...`). -/
def truthyJ (o : Option JVal) : Option JVal :=
  o.bind (fun v => if jvTruthy v then some v else none)

/-- `Array.isArray(data) ? data : [data]`. -/
def itemsOf : JVal → List JVal
  | .arr xs => xs
  | v => [v]

/-- A JSON `null` value.  Property access on it (`item['@type']`) throws a
TypeError; every other JSON value supports property access (primitives are
boxed and yield `undefined`). -/
def isNullJ : JVal → Bool
  | .null => true
  | _ => false

/-- `(@type or type)` is `'JobPosting'` or an array containing it
(`===` comparison, so only string elements count). -/
def isJobPosting (item : JVal) : Bool :=
  match jsOrJ (getJ item "@type") (getJ item "type") with
  | some (.arr xs) => xs.any (fun v => match v with | .str s => s = "JobPosting" | _ => false)
  | some (.str s) => s = "JobPosting"
  | _ => false

/-- One block's contribution to `jobPostings` (src/main.js lines 185-189):
the job-posting-typed items in order.  A `null` item makes `item['@type']`
throw; the per-block `catch` swallows it, so the block's remaining items are
skipped while items already collected are kept. -/
def scanItems : List JVal → List JVal
  | [] => []
  | v :: rest =>
    if isNullJ v then []
    else (if isJobPosting v then [v] else []) ++ scanItems rest

/-- `parseAllJsonLd` (src/main.js lines 176-195): scan every block, skip the
unparsable ones, collect the job-posting-typed items across blocks in order
(a `null` item aborts its own block's item loop), return the first or
`none`. -/
def parseAllJsonLd (blocks : List LdBlock) : Option JVal :=
  (blocks.foldl (fun acc b =>
    match b with
    | none => acc
    | some v => acc ++ scanItems (itemsOf v)) []).head?

/-- The item loop of the legacy reader (src/unnamed/part_001 lines 135-148):
returns on the first job-posting-typed item; a `null` item reached first
throws, and the surrounding `catch` turns the whole call into `null`. -/
def findFirstAbort : List JVal → Option JVal
  | [] => none
  | v :: rest =>
    if isNullJ v then none
    else if isJobPosting v then some v
    else findFirstAbort rest

/-- `extractJsonLd` of the related revision (src/unnamed/part_001 lines
129-151): reads only the FIRST structured-data block (`$(sel).html()`),
returns `none` when that block is absent or unparsable, otherwise the first
job-posting-typed item of that block (the source then projects scalar
fields from it). -/
def extractJsonLd (blocks : List LdBlock) : Option JVal :=
  match blocks with
  | [] => none
  | b :: _ =>
    match b with
    | none => none
    | some v => findFirstAbort (itemsOf v)

/-- A block none of whose items is `null`: on such blocks the item loop
never throws. -/
def ldBlockNullFree : LdBlock → Bool
  | none => true
  | some v => (itemsOf v).all (fun i => !isNullJ i)

/-- The structured salary fields assembled by `normalizeSalaryFromJsonLd`;
each field is present exactly when the source sets the corresponding key. -/
structure SalaryOut where
  salary_currency : Option JVal
  salary_period : Option JVal
  salary_min : Option JVal
  salary_max : Option JVal
  salary_amount : Option JVal

def SalaryOut.isEmptyOut (o : SalaryOut) : Bool :=
  o.salary_currency.isNone && o.salary_period.isNone && o.salary_min.isNone &&
    o.salary_max.isNone && o.salary_amount.isNone

/-- `normalizeSalaryFromJsonLd` (src/main.js lines 148-174). -/
def normalizeSalaryFromJsonLd (baseSalary : Option JVal) : Option SalaryOut :=
  match truthyJ baseSalary with
  | none => none
  | some bs =>
    let isMonetary : Bool := match getJ bs "@type" with
      | some (.str s) => s = "MonetaryAmount"
      | _ => false
    let value : Option JVal :=
      if isMonetary then getJ bs "value" else jsOrJ (getJ bs "value") (some bs)
    let currency : Option JVal := truthyJ (getJ bs "currency")
    let isTruthyObj : Bool := match truthyJ value with
      | some (.obj _) => true
      | some (.arr _) => true
      | _ => false
    let isNum : Bool := match value with
      | some (.num _) => true
      | _ => false
    if isTruthyObj then
      let v := (value.getD .null)
      let minv := presentJ (getJ v "minValue")
      let maxv := presentJ (getJ v "maxValue")
      let amountv := presentJ (getJ v "value")
      let unitText : Option JVal :=
        match presentJ (getJ v "unitText") with
        | some w => some w
        | none => presentJ (getJ bs "unitText")
      let out : SalaryOut :=
        { salary_currency := currency
          salary_period := truthyJ unitText
          salary_min := minv
          salary_max := maxv
          salary_amount := if minv.isNone && maxv.isNone then amountv else none }
      if out.isEmptyOut then none else some out
    else if isNum then
      let out : SalaryOut :=
        { salary_currency := currency
          salary_period := none
          salary_min := none
          salary_max := none
          salary_amount := value }
      if out.isEmptyOut then none else some out
    else
      let out : SalaryOut :=
        { salary_currency := currency
          salary_period := none
          salary_min := none
          salary_max := none
          salary_amount := none }
      if out.isEmptyOut then none else some out

/-! ## Part 4: HTML fragments and the sanitizer

An HTML string is modeled by its parsed DOM forest (`''` parses to `[]`).
`stripAttrsKeepTags` (src/main.js lines 37-70) operates on the DOCUMENT
built by `cheerio.load`, which wraps the fragment in the
`<html><head></head><body>…</body></html>` scaffold: removal of
non-content/hidden subtrees, then the `$('*')` loop over every element of
the document — the scaffold elements included — which unwraps each
non-allowlisted element in place (`$(el).replaceWith($(el).contents())`) and
strips the attributes of allowed ones (`href` on `a` only).  None of
`html`/`head`/`body` is allow-listed, so the `body` element itself is
unwrapped; the function then normalizes text under `$('body')` and returns
`$('body').html() || ''`.  Serialization is tag/attr/text concatenation
(entity re-encoding does not affect any predicate used here).
-/

inductive HNode where
  | text (s : String)
  | elem (tag : String) (attrs : List (String × String)) (children : List HNode)

abbrev Html := List HNode

def attrVal : List (String × String) → String → Option String
  | [], _ => none
  | (k, v) :: rest, k' => if k = k' then some v else attrVal rest k'

/-- CSS class selector `.w`: the class attribute contains the word `w`. -/
def classHasWord (v w : String) : Bool := (splitWsAux v.data []).contains w

/-- Tags removed outright by the sanitizer
(`script, style, noscript, iframe, form, button, svg, input, textarea, select`). -/
def removedTag (t : String) : Bool :=
  t = "script" || t = "style" || t = "noscript" || t = "iframe" || t = "form" ||
  t = "button" || t = "svg" || t = "input" || t = "textarea" || t = "select"

/-- The hidden/overlay removal selectors:
`[data-complaint-overlay], #complaint-popup-container, .popup,
[aria-hidden="true"], [style*="display:none"], [hidden]`. -/
def hiddenAttrs (a : List (String × String)) : Bool :=
  (attrVal a "data-complaint-overlay").isSome ||
  (match attrVal a "id" with | some v => v = "complaint-popup-container" | none => false) ||
  (match attrVal a "class" with | some v => classHasWord v "popup" | none => false) ||
  (match attrVal a "aria-hidden" with | some v => v = "true" | none => false) ||
  (match attrVal a "style" with | some v => containsSub v "display:none" | none => false) ||
  (attrVal a "hidden").isSome

mutual
def removeBadN : HNode → Html
  | .text s => [.text s]
  | .elem t a ch =>
    if removedTag t || hiddenAttrs a then [] else [.elem t a (removeBadL ch)]
def removeBadL : Html → Html
  | [] => []
  | n :: ns => removeBadN n ++ removeBadL ns
end

/-- The allowed content tags
(`p, br, ul, ol, li, strong, em, b, i, a, h3, h4`). -/
def allowedTag (t : String) : Bool :=
  t = "p" || t = "br" || t = "ul" || t = "ol" || t = "li" || t = "strong" || t = "em" ||
  t = "b" || t = "i" || t = "a" || t = "h3" || t = "h4"

/-- Attribute kept on an allowed element: `href` on an anchor only. -/
def keptAttr (t : String) (k : String) : Bool := t = "a" && k = "href"

mutual
/-- Unwrap non-allowlisted elements (children promoted in place) and strip
the attributes of allowed ones. -/
def unwrapN : HNode → Html
  | .text s => [.text s]
  | .elem t a ch =>
    if allowedTag t then [.elem t (a.filter fun p => keptAttr t p.1) (unwrapL ch)]
    else unwrapL ch
def unwrapL : Html → Html
  | [] => []
  | n :: ns => unwrapN n ++ unwrapL ns
end

mutual
/-- Normalize text nodes that have an element parent (`top = true` at the
fragment's root, whose direct text children the source does not touch). -/
def normTextsN : HNode → HNode
  | .text s => .text s
  | .elem t a ch => .elem t a (normTextsL false ch)
def normTextsL : Bool → Html → Html
  | _, [] => []
  | top, .text s :: ns => (if top then .text s else .text (normText s)) :: normTextsL top ns
  | top, .elem t a ch :: ns => normTextsN (.elem t a ch) :: normTextsL top ns
end

/-- `cheerio.load` wraps the parsed fragment in the document scaffold
`<html><head></head><body>…</body></html>`. -/
def loadWrap (h : Html) : Html :=
  [.elem "html" [] [.elem "head" [] [], .elem "body" [] h]]

mutual
/-- `$('body')` then `.html()`: the children of the first `body` element in
document order, `none` when no `body` element remains (cheerio's `.html()`
of an empty selection is `null`). -/
def findBodyN : HNode → Option Html
  | .text _ => none
  | .elem t _ ch => if t = "body" then some ch else findBodyL ch
def findBodyL : Html → Option Html
  | [] => none
  | n :: ns =>
    match findBodyN n with
    | some r => some r
    | none => findBodyL ns
end

/-- `stripAttrsKeepTags` (src/main.js lines 37-70) on the parsed input
string.  The removal selectors run on the `cheerio.load` document, the
`$('*')` loop unwraps every non-allowlisted element of that document — the
`html`/`head`/`body` scaffold included — and strips the attributes of
allowed ones; the iteration over the static `$('*')` snapshot with
`replaceWith(contents)` yields the same tree as the recursive unwrap.  The
whitespace-normalization pass then runs on `$('body').find('*').contents()`
and the function returns `$('body').html() || ''`, whose parse is the
result forest (`[]` for `''`). -/
def stripAttrsKeepTags (h : Html) : Html :=
  match findBodyL (unwrapL (removeBadL (loadWrap h))) with
  | some inner => normTextsL true inner
  | none => []

mutual
/-- The sanitizer's output shape: allowed tags only, each carrying only
attributes the sanitizer keeps (`href` on an anchor). -/
def cleanN : HNode → Bool
  | .text _ => true
  | .elem t a ch => allowedTag t && a.all (fun p => keptAttr t p.1) && cleanL ch
def cleanL : Html → Bool
  | [] => true
  | n :: ns => cleanN n && cleanL ns
end

mutual
/-- Every attribute anywhere in the forest is an anchor's `href`. -/
def onlyAnchorHrefN : HNode → Bool
  | .text _ => true
  | .elem t a ch => a.all (fun p => t = "a" && p.1 = "href") && onlyAnchorHrefL ch
def onlyAnchorHrefL : Html → Bool
  | [] => true
  | n :: ns => onlyAnchorHrefN n && onlyAnchorHrefL ns
end

def serAttrs : List (String × String) → String
  | [] => ""
  | (k, v) :: rest => " " ++ k ++ "=\"" ++ v ++ "\"" ++ serAttrs rest

def isVoidTag (t : String) : Bool :=
  t = "area" || t = "base" || t = "br" || t = "col" || t = "embed" || t = "hr" ||
  t = "img" || t = "input" || t = "link" || t = "meta" || t = "source" ||
  t = "track" || t = "wbr"

mutual
def serializeN : HNode → String
  | .text s => s
  | .elem t a ch =>
    "<" ++ t ++ serAttrs a ++ ">" ++
      (if isVoidTag t then "" else serializeL ch ++ "</" ++ t ++ ">")
def serializeL : Html → String
  | [] => ""
  | n :: ns => serializeN n ++ serializeL ns
end

/-- A fragment is JS-truthy as a string when it serializes non-empty. -/
def htmlTruthy (h : Html) : Bool := serializeL h ≠ ""

/-- Tags removed by `cleanHtmlToText`
(`script, style, noscript, iframe, form, button, svg`). -/
def textRemovedTag (t : String) : Bool :=
  t = "script" || t = "style" || t = "noscript" || t = "iframe" || t = "form" ||
  t = "button" || t = "svg"

mutual
def dropTagsN : HNode → Html
  | .text s => [.text s]
  | .elem t a ch => if textRemovedTag t then [] else [.elem t a (dropTagsL ch)]
def dropTagsL : Html → Html
  | [] => []
  | n :: ns => dropTagsN n ++ dropTagsL ns
end

mutual
def textOfN : HNode → String
  | .text s => s
  | .elem _ _ ch => textOfL ch
def textOfL : Html → String
  | [] => ""
  | n :: ns => textOfN n ++ textOfL ns
end

/-- `cleanHtmlToText` (src/main.js lines 30-35) on a parsed fragment: drop
scripts/styles/…, take the text, collapse whitespace.  The source returns
`null` on a falsy input string, which callers merge with the empty string;
`cleanHtmlToTextH` returns the string, and call sites apply the truthiness
convention. -/
def cleanHtmlToTextH (h : Html) : String := normText (textOfL (dropTagsL h))

/-- `.hide, [data-offers-grid-detail-container-error], [data-complaint-overlay],
.popup, #complaint-popup-container, [aria-hidden="true"]` — the pre-removal
applied to the description element's inner HTML, then `script,style,noscript`. -/
def tempRemovedAttrs (a : List (String × String)) : Bool :=
  (match attrVal a "class" with | some v => classHasWord v "hide" | none => false) ||
  (attrVal a "data-offers-grid-detail-container-error").isSome ||
  (attrVal a "data-complaint-overlay").isSome ||
  (match attrVal a "class" with | some v => classHasWord v "popup" | none => false) ||
  (match attrVal a "id" with | some v => v = "complaint-popup-container" | none => false) ||
  (match attrVal a "aria-hidden" with | some v => v = "true" | none => false)

def tempRemovedTag (t : String) : Bool := t = "script" || t = "style" || t = "noscript"

mutual
def tempCleanN : HNode → Html
  | .text s => [.text s]
  | .elem t a ch =>
    if tempRemovedAttrs a || tempRemovedTag t then [] else [.elem t a (tempCleanL ch)]
def tempCleanL : Html → Html
  | [] => []
  | n :: ns => tempCleanN n ++ tempCleanL ns
end

/-- `/{.*}/` — an opening brace with a closing brace later on the same line. -/
def braceCloseAhead : List Char → Bool
  | [] => false
  | '}' :: _ => true
  | '\n' :: _ => false
  | _ :: cs => braceCloseAhead cs

def braceBlockTest : List Char → Bool
  | [] => false
  | '{' :: cs => braceCloseAhead cs || braceBlockTest cs
  | _ :: cs => braceBlockTest cs

/-- `/<(p|ul|li|a|strong|em|br|h3|h4)/i` on the serialized fragment. -/
def hasContentTagMark (s : String) : Bool :=
  ["<p", "<ul", "<li", "<a", "<strong", "<em", "<br", "<h3", "<h4"].any
    (fun pat => containsSub (toLowerStr s) pat)

/-- The CSS-leakage guard condition of `extractJobDetail` (src/main.js line
534): a brace block and none of the allowed content tags. -/
def cssLeakGuard (h : Html) : Bool :=
  braceBlockTest (serializeL h).data && !hasContentTagMark (serializeL h)

/-! ## Part 5: document model and the field-resolution core

A document is modeled by the results of the DOM queries `extractJobDetail`
(src/main.js lines 355-560) and its helpers perform on it: each selector's
outcome is a document given (`none`/`""` when the selector matches nothing),
and `extractJobDetail` is the literal dataflow of the source over these.
-/

def jvStrOrEmpty : JVal → String
  | .str s => s
  | _ => ""

/-- A truthy JSON value as a string field (non-string truthy values would
throw inside the source's `normText`; they do not occur in this data and
are modeled as absent). -/
def ldStr (o : Option JVal) : String :=
  match truthyJ o with
  | some v => jvStrOrEmpty v
  | _ => ""

def joinWith (sep : String) : List String → String
  | [] => ""
  | [x] => x
  | x :: xs => x ++ sep ++ joinWith sep xs

def jvFieldText (o : JVal) (k : String) : String :=
  match getJ o k with
  | some v => jvStrOrEmpty v
  | none => ""

/-- The normalized projection of the first job-posting item
(`extractFromJsonLd`, src/main.js lines 322-353); all-empty when no item. -/
structure LdExtract where
  title : String := ""
  company : String := ""
  datePosted : String := ""
  description_raw : String := ""
  location : String := ""
  salary_struct : Option SalaryOut := none
  employmentType : Option (List String) := none

def extractFromJsonLd (blocks : List LdBlock) : LdExtract :=
  match parseAllJsonLd blocks with
  | none => {}
  | some item =>
    let jlArr : List JVal :=
      match getJ item "jobLocation" with
      | some jl => if jvTruthy jl then itemsOf jl else []
      | none => []
    let pieces := jlArr.map (fun j =>
      let addr := match truthyJ (getJ j "address") with
        | some a => a
        | none => JVal.obj []
      joinWith ", " ((([jvFieldText addr "addressLocality", jvFieldText addr "addressRegion",
        jvFieldText addr "addressCountry"]).map normText).filter (· ≠ "")))
    let et : Option (List JVal) :=
      match getJ item "employmentType" with
      | some v => if jvTruthy v then some (itemsOf v) else none
      | none => none
    { title := ldStr (jsOrJ (getJ item "title") (getJ item "name"))
      company := ldStr ((getJ item "hiringOrganization").bind (fun h => getJ h "name"))
      datePosted := ldStr (getJ item "datePosted")
      description_raw := ldStr (getJ item "description")
      location := joinWith " | " (pieces.filter (· ≠ ""))
      salary_struct := normalizeSalaryFromJsonLd (getJ item "baseSalary")
      employmentType := et.map (fun xs =>
        ((xs.map (fun v => normText (jvStrOrEmpty v))).filter (· ≠ ""))) }

/-- JavaScript `String.prototype.trim`. -/
def trimStr (s : String) : String :=
  String.mk (((s.data.dropWhile isJsWs).reverse.dropWhile isJsWs).reverse)

def isWordC (c : Char) : Bool := ('a' ≤ c && c ≤ 'z') || ('A' ≤ c && c ≤ 'Z') || isDigitC c || c = '_'

def classDig (c : Char) : Bool := isDigitC c || c = '.' || c = ','

/-- `\b` after the last matched character. -/
def boundaryAfter (last : Char) (rest : List Char) : Bool :=
  match rest with
  | [] => isWordC last
  | c :: _ => isWordC last != isWordC c

/-- Greedy `[\d.,]{0,3}\b` continuation after the leading digit, longest
first (the regex backtracks the bounded repetition). -/
def tryNumExt (c : Char) (cs : List Char) : Nat → Option (Char × List Char)
  | 0 => if boundaryAfter c cs then some (c, cs) else none
  | j + 1 =>
    match cs.get? j with
    | some lastC =>
      if (cs.take (j+1)).all classDig && boundaryAfter lastC (cs.drop (j+1)) then
        some (lastC, cs.drop (j+1))
      else tryNumExt c cs j
    | none => tryNumExt c cs j

/-- Global replacement of `/\b\d[\d.,]{0,3}\b/` by the empty string. -/
def numStripGo : Nat → Option Char → List Char → List Char
  | 0, _, cs => cs
  | fuel + 1, prev, cs =>
    match cs with
    | [] => []
    | c :: rest =>
      if isDigitC c && (match prev with | none => true | some p => !isWordC p) then
        match tryNumExt c rest 3 with
        | some (lastC, rest2) => numStripGo fuel (some lastC) rest2
        | none => c :: numStripGo fuel (some c) rest
      else c :: numStripGo fuel (some c) rest

def numStrip (s : String) : String := String.mk (numStripGo s.data.length none s.data)

/-- The company-name stop markers (`STOP_TOKENS`). -/
def stopTokens : List String :=
  ["seguir", "volver", "información básica", "política de privacidad",
   "responsable", "finalidad", "legitimación", "destinatarios", "derechos",
   "¡no te pierdas", "recibe notificaciones", "formato incorrecto",
   "contraseña incorrecta", "acepto las condiciones", "ver detalle legal"]

/-- Collapse runs of two or more whitespace characters to one space
(`/\s{2,}/g`; a single whitespace character is left as is). -/
def collapse2Go : Nat → List Char → List Char
  | 0, cs => cs
  | fuel + 1, cs =>
    match cs with
    | [] => []
    | c :: rest =>
      if isJsWs c then
        let run := rest.takeWhile isJsWs
        if run.length ≥ 1 then ' ' :: collapse2Go fuel (rest.drop run.length)
        else c :: collapse2Go fuel rest
      else c :: collapse2Go fuel rest

def collapse2 (s : String) : String := String.mk (collapse2Go s.data.length s.data)

/-- `cleanCompanyName` (src/main.js lines 200-225). -/
def cleanCompanyName (raw : String) : Option String :=
  let s0 := normText raw
  if s0 = "" then none
  else
    let s1 := String.mk (((s0.data.takeWhile (· ≠ '\n')).takeWhile (· ≠ '|')).takeWhile (· ≠ '·'))
    let s2 := trimStr (numStrip s1)
    let s3 := stopTokens.foldl (fun s tok =>
      match idxOfSub (toLowerStr s) tok with
      | some idx => if 0 < idx then trimStr (String.mk (s.data.take idx)) else s
      | none => s) s2
    let s4 := String.mk ((s3.data.reverse.dropWhile (fun c => c = '•' || c = '·' || c = '|')).reverse)
    let s5 := trimStr (collapse2 s4)
    let s6 := if s5.length > 80 then trimStr (String.mk (s5.data.take 80)) else s5
    if s6 = "" then none else some s6

/-- `pickFirstNonEmpty` (src/main.js lines 20-28) over string candidates. -/
def pickFirstNonEmpty : List (Option String) → Option String
  | [] => none
  | v :: rest =>
    match v with
    | none => pickFirstNonEmpty rest
    | some t => if normText t ≠ "" then some (normText t) else pickFirstNonEmpty rest

/-- `\s*-\s*Publicado` matches at the head of `cs`. -/
def dashPublicadoAt (cs : List Char) : Bool :=
  match cs.dropWhile isJsWs with
  | '-' :: r2 => isPrefixOfL "publicado".data (List.map Char.toLower (r2.dropWhile isJsWs))
  | _ => false

/-- `.replace(/\s*-\s*Publicado.*$/i, '')` on single-line text: truncate at
the leftmost match. -/
def cutDashPublicado (s : String) : String :=
  String.mk (go s.data.length s.data)
where
  go : Nat → List Char → List Char
    | 0, cs => cs
    | fuel + 1, cs =>
      match cs with
      | [] => []
      | c :: rest => if dashPublicadoAt (c :: rest) then [] else c :: go fuel rest

/-- Truncate at the first case-insensitive occurrence of `tok` (the
`/Tok.*$/i`-style cleanups run on whitespace-normalized single-line text). -/
def cutAtCI (s tok : String) : String :=
  match idxOfSub (toLowerStr s) tok with
  | some i => String.mk (s.data.take i)
  | none => s

/-- Remove every case-insensitive occurrence of `tok` (`/Tok/gi`). -/
def removeAllCI (s tok : String) : String :=
  String.mk (go s.data.length s.data)
where
  go : Nat → List Char → List Char
    | 0, cs => cs
    | fuel + 1, cs =>
      match cs with
      | [] => []
      | c :: rest =>
        if isPrefixOfL tok.data (List.map Char.toLower (c :: rest)) then
          go fuel ((c :: rest).drop tok.data.length)
        else c :: go fuel rest

structure Doc where
  pageTitle : String := ""
  bodyText : String := ""
  hasPasswordInput : Bool := false
  hasLoginFormAction : Bool := false
  hasTitleClassEl : Bool := false
  ldBlocks : List LdBlock := []
  ldDescTree : Html := []
  titleOfferText : Option String := none
  h1Text : Option String := none
  companyLinkText : Option String := none
  microOrgName1 : String := ""
  microOrgName2 : String := ""
  empresaAnchorTexts : List String := []
  fcBaseText : String := ""
  headerAnchorText : String := ""
  microCompanyText : Option String := none
  locElText : Option String := none
  microLocality : String := ""
  microRegion : String := ""
  microCountry : String := ""
  labeledLocation : Option String := none
  boxHeaderPText : String := ""
  microLocElText : Option String := none
  dateElText : Option String := none
  labeledDate : Option String := none
  typeElText : Option String := none
  labeledEmployment : Option String := none
  labeledSalary : Option String := none
  descWordWrap : Option Html := none
  descCands : List (Option Html) := []
  broadEl : Option Html := none

/-- `pickCompanyFromDom` (src/main.js lines 228-264). -/
def pickCompanyFromDom (doc : Doc) : Option String :=
  let c0 := if doc.microOrgName1 ≠ "" then doc.microOrgName1 else doc.microOrgName2
  match cleanCompanyName c0 with
  | some c => some c
  | none =>
    match doc.empresaAnchorTexts.findSome? cleanCompanyName with
    | some c => some c
    | none =>
      match cleanCompanyName doc.fcBaseText with
      | some c => some c
      | none => cleanCompanyName doc.headerAnchorText

/-- `pickLocation` (src/main.js lines 267-288). -/
def pickLocation (doc : Doc) (fallbackText : Option String) : Option String :=
  let parts := ([doc.microLocality, doc.microRegion, doc.microCountry].map normText).filter (· ≠ "")
  if parts ≠ [] then some (joinWith ", " parts)
  else
    match pickFirstNonEmpty [doc.labeledLocation, fallbackText] with
    | none => none
    | some loc0 =>
      let l1 := cutAtCI loc0 "publicado"
      let l2 := cutAtCI l1 "postular"
      let l3 := cutAtCI l2 "ver detalle legal"
      let l4 := trimStr (collapse2 l3)
      let l5 := trimStr (String.mk ((l4.data.takeWhile (· ≠ '|')).takeWhile (· ≠ '·')))
      let l6 := if l5.length > 120 then trimStr (String.mk (l5.data.take 120)) else l5
      if l6 = "" then none else some l6

/-- `pickDescriptionHtml` (src/main.js lines 291-318). -/
def pickDescriptionHtml (doc : Doc) : Option Html :=
  match doc.descCands.findSome? (fun cand =>
    match cand with
    | some el =>
      if (normText (textOfL el)).length > 40 then some (stripAttrsKeepTags el) else none
    | none => none) with
  | some h => some h
  | none =>
    match doc.broadEl with
    | some broad =>
      let html := stripAttrsKeepTags broad
      let txt := if htmlTruthy html then cleanHtmlToTextH html else ""
      if (normText txt).length > 40 then some html else none
    | none => none

/-- `^(Jornada|Tipo de contrato|Modalidad):\s*` removal, then trim. -/
def stripLeadLabel (s : String) : String :=
  let tryLab (lab : String) : Option String :=
    if isPrefixOfL (lab ++ ":").data (toLowerStr s).data then
      some (String.mk ((s.data.drop (lab.data.length + 1)).dropWhile isJsWs))
    else none
  let r := match tryLab "jornada" with
    | some r => r
    | none =>
      match tryLab "tipo de contrato" with
      | some r => r
      | none =>
        match tryLab "modalidad" with
        | some r => r
        | none => s
  trimStr r

/-- The output record assembled by `extractJobDetail`; `none` models both a
JavaScript `null` and a field key that is never set. -/
structure Job where
  url : String
  source : String
  title : Option String
  company : Option String
  location : Option String
  datePosted : Option String
  description_html : Option Html
  description_text : Option String
  employmentType : Option String
  salary_currency : Option JVal := none
  salary_period : Option JVal := none
  salary_min : Option JVal := none
  salary_max : Option JVal := none
  salary_amount : Option JVal := none
  salary_text : Option String := none

/-- The TITLE section of `extractJobDetail` (src/main.js lines 359-378):
JSON-LD title, then the exact `.title_offer` class, then the first `h1`. -/
def titleResolve (doc : Doc) : String :=
  let jsonLd := extractFromJsonLd doc.ldBlocks
  let t1 : String := if jsonLd.title ≠ "" then normText jsonLd.title else ""
  let t2 : String := if t1 ≠ "" then t1 else
    match doc.titleOfferText with
    | some t => normText t
    | none => ""
  if t2 ≠ "" then t2 else
    match doc.h1Text with
    | some t => normText t
    | none => ""

/-- The COMPANY section (src/main.js lines 380-403). -/
def companyResolve (doc : Doc) : Option String :=
  let jsonLd := extractFromJsonLd doc.ldBlocks
  let c1 : Option String :=
    if jsonLd.company ≠ "" then cleanCompanyName jsonLd.company else none
  let c2 : Option String := match c1 with
    | some c => some c
    | none =>
      match doc.companyLinkText with
      | some t => cleanCompanyName t
      | none => none
  let c3 : Option String := match c2 with
    | some c => some c
    | none => pickCompanyFromDom doc
  match c3 with
  | some c => some c
  | none =>
    match doc.microCompanyText with
    | some t => cleanCompanyName t
    | none => none

/-- The LOCATION section (src/main.js lines 405-431). -/
def locationResolve (doc : Doc) : String :=
  let jsonLd := extractFromJsonLd doc.ldBlocks
  let l1 : String := if jsonLd.location ≠ "" then normText jsonLd.location else ""
  let l2 : String := if l1 ≠ "" then l1 else
    match doc.locElText with
    | some t =>
      let lt := normText t
      let lt := cutDashPublicado lt
      let lt := removeAllCI lt "ver mapa"
      trimStr lt
    | none => ""
  let l3 : String := if l2 ≠ "" then l2 else
    (pickLocation doc (some doc.boxHeaderPText)).getD ""
  if l3 ≠ "" then l3 else
    match doc.microLocElText with
    | some t => normText t
    | none => ""

/-- The DATE POSTED section (src/main.js lines 433-456): the JSON-LD value
passed through, else the date element's text with `iso || dateText`, else
the labeled probe with `iso || rel`. -/
def dateResolve (doc : Doc) (now : Int) : String :=
  let jsonLd := extractFromJsonLd doc.ldBlocks
  let d1 : String := jsonLd.datePosted
  let d2 : String := if d1 ≠ "" then d1 else
    match doc.dateElText with
    | some t =>
      let dateText := normText t
      match parseSpanishRelativeDateToISO dateText now with
      | some iso => iso
      | none => dateText
    | none => ""
  if d2 ≠ "" then d2 else
    match doc.labeledDate with
    | some rel =>
      if rel ≠ "" then
        match parseSpanishRelativeDateToISO rel now with
        | some iso => iso
        | none => rel
      else ""
    | none => ""

/-- The EMPLOYMENT TYPE section (src/main.js lines 458-481). -/
def employmentResolve (doc : Doc) : String :=
  let jsonLd := extractFromJsonLd doc.ldBlocks
  let e1 : String := match jsonLd.employmentType with
    | some xs => joinWith ", " xs
    | none => ""
  let e2 : String := if e1 ≠ "" then e1 else
    match doc.typeElText with
    | some t => stripLeadLabel (normText t)
    | none => ""
  if e2 ≠ "" then e2 else
    match doc.labeledEmployment with
    | some j => j
    | none => ""

/-- The SALARY section (src/main.js lines 483-492): the unstructured probe
is consulted only when the structured normalizer produced nothing. -/
def salaryTextResolve (doc : Doc) : String :=
  match (extractFromJsonLd doc.ldBlocks).salary_struct with
  | some _ => ""
  | none =>
    match doc.labeledSalary with
    | some scr => if scr ≠ "" then normText scr else ""
    | none => ""

/-- DESCRIPTION step 1 (src/main.js lines 499-505): the JSON-LD description,
sanitized, when long enough; `([], "")` stands for `(null, null)`. -/
def descFromLd (doc : Doc) : Html × String :=
  let jsonLd := extractFromJsonLd doc.ldBlocks
  if jsonLd.description_raw ≠ "" && (normText jsonLd.description_raw).length > 40 then
    let sanitized := stripAttrsKeepTags doc.ldDescTree
    if htmlTruthy sanitized && (normText (cleanHtmlToTextH sanitized)).length > 40 then
      (sanitized, cleanHtmlToTextH sanitized)
    else ([], "")
  else ([], "")

/-- DESCRIPTION step 2 (src/main.js lines 507-522): the
`.fs16.t_word_wrap` element, pre-cleaned and sanitized. -/
def descFromWordWrap (doc : Doc) (p : Html × String) : Html × String :=
  if htmlTruthy p.1 then p else
    match doc.descWordWrap with
    | some inner =>
      if htmlTruthy inner then
        let dh2 := stripAttrsKeepTags (tempCleanL inner)
        (dh2, if htmlTruthy dh2 then cleanHtmlToTextH dh2 else "")
      else p
    | none => p

/-- DESCRIPTION step 3 (src/main.js lines 524-531): `pickDescriptionHtml`. -/
def descFromPick (doc : Doc) (p : Html × String) : Html × String :=
  if htmlTruthy p.1 then p else
    match pickDescriptionHtml doc with
    | some html =>
      if htmlTruthy html then (html, cleanHtmlToTextH html)
      else p
    | none => p

/-- The CSS-leakage guard (src/main.js lines 533-537): both fields cleared
together when the sanitized fragment looks like stylesheet text. -/
def descGuard (p : Html × String) : Html × String :=
  if htmlTruthy p.1 && cssLeakGuard p.1 then ([], "") else p

/-- The DESCRIPTION section of `extractJobDetail` (src/main.js lines
494-537): the three probes in priority order, then the guard. -/
def descResolve (doc : Doc) : Html × String :=
  descGuard (descFromPick doc (descFromWordWrap doc (descFromLd doc)))

/-- `description_html: descHtml || null` (src/main.js line 548). -/
def descriptionHtmlField (p : Html × String) : Option Html :=
  if htmlTruthy p.1 then some p.1 else none

/-- `description_text: descText || null` (src/main.js line 549). -/
def descriptionTextField (p : Html × String) : Option String :=
  if p.2 = "" then none else some p.2

/-- `extractJobDetail` (src/main.js lines 355-560): the field-resolution
pipeline over the document's probe results, assembled from the per-field
sections above.  `now` is the clock instant read by `new Date()` inside
the Date Interpreter. -/
def extractJobDetail (doc : Doc) (url : String) (now : Int) : Job :=
  let title := titleResolve doc
  let location := locationResolve doc
  let datePosted := dateResolve doc now
  let employmentType := employmentResolve doc
  let salary_struct := (extractFromJsonLd doc.ldBlocks).salary_struct
  let salary_text := salaryTextResolve doc
  let descPair := descResolve doc
  { url := url
    source := "computrabajo.com"
    title := if title = "" then none else some title
    company := companyResolve doc
    location := if location = "" then none else some location
    datePosted := if datePosted = "" then none else some datePosted
    description_html := descriptionHtmlField descPair
    description_text := descriptionTextField descPair
    employmentType := if employmentType = "" then none else some employmentType
    salary_currency := salary_struct.bind (·.salary_currency)
    salary_period := salary_struct.bind (·.salary_period)
    salary_min := salary_struct.bind (·.salary_min)
    salary_max := salary_struct.bind (·.salary_max)
    salary_amount := salary_struct.bind (·.salary_amount)
    salary_text := match salary_struct with
      | some _ => none
      | none => if salary_text ≠ "" then some salary_text else none }

/-! ## Part 6: router handlers, page-validity classification, result limit

The default and `DETAIL` handlers of both revisions in src/main.js.  A
thrown error (`throw new Error(...)`) is the retry signal consumed by the
crawler's `failedRequestHandler`; a handler invocation is modeled as the
records it pushes plus the updated saved-count, or the thrown message.
-/

/-- `/\/oferta-|\/job\/|\/empleo\/|\/vacante\//i.test(request.url)`. -/
def isDetailUrl (url : String) : Bool :=
  ["/oferta-", "/job/", "/empleo/", "/vacante/"].any
    (fun p => containsSub (toLowerStr url) p)

/-- The blocked/redirect page classifier of the hardened revision
(src/main.js lines 1468-1479): sign-in phrasing in the lowercased page
title or body, a password input, or a login-form action. -/
def isBlockedOrRedirect (doc : Doc) : Bool :=
  containsSub (toLowerStr doc.pageTitle) "sign in" ||
  containsSub (toLowerStr doc.pageTitle) "iniciar sesión" ||
  containsSub (toLowerStr doc.bodyText) "continue with google" ||
  containsSub (toLowerStr doc.bodyText) "iniciar sesión" ||
  containsSub (toLowerStr doc.bodyText) "crear cuenta" ||
  doc.hasPasswordInput ||
  doc.hasLoginFormAction

/-- Positive evidence of job content (src/main.js lines 1499-1502). -/
def hasJobContent (doc : Doc) : Bool :=
  doc.h1Text.isSome || doc.hasTitleClassEl || !doc.ldBlocks.isEmpty

/-- The extracted-data sanity guard (`hasValidData`, src/main.js lines
1512-1517) on the resolved title. -/
def titleGuardOk (title : String) : Bool :=
  title ≠ "" && title.length < 200 &&
  !containsSub (toLowerStr title) "sign in" &&
  !containsSub (toLowerStr title) "job openings in" &&
  !containsSub (toLowerStr title) "crear cuenta" &&
  !containsSub (toLowerStr title) "iniciar sesión"

inductive HandlerOutcome where
  | threw (msg : String)
  | ok (pushed : List Job) (saved : Nat)

def HandlerOutcome.pushedList : HandlerOutcome → List Job
  | .threw _ => []
  | .ok p _ => p

def HandlerOutcome.isThrew : HandlerOutcome → Bool
  | .threw _ => true
  | .ok _ _ => false

/-- The default handler of the hardened revision (src/main.js lines
1466-1543) on a detail-or-listing document; listing branches only enqueue
further requests and push nothing. -/
def defaultHandlerRev2 (maxResultsDesired totalJobsSaved : Nat) (doc : Doc)
    (url : String) (now : Int) : HandlerOutcome :=
  if isBlockedOrRedirect doc then
    .threw "Blocked or redirected to login page - rotating session"
  else if isDetailUrl url then
    if maxResultsDesired ≤ totalJobsSaved then .ok [] totalJobsSaved
    else if !hasJobContent doc then .threw "No job content detected - rotating session"
    else
      let job := extractJobDetail doc url now
      if !(titleGuardOk (job.title.getD "")) then
        .threw "Invalid data extracted - rotating session"
      else if job.title.isSome then .ok [job] (totalJobsSaved + 1)
      else .ok [] totalJobsSaved
  else .ok [] totalJobsSaved

/-- The default handler of the first revision (src/main.js lines 615-686):
no block-page guard; a record is pushed exactly when the resolved title is
truthy. -/
def defaultHandlerRev1 (maxResultsDesired totalJobsSaved : Nat) (doc : Doc)
    (url : String) (now : Int) : HandlerOutcome :=
  if isDetailUrl url then
    if maxResultsDesired ≤ totalJobsSaved then .ok [] totalJobsSaved
    else
      let job := extractJobDetail doc url now
      if job.title.isSome then .ok [job] (totalJobsSaved + 1)
      else .ok [] totalJobsSaved
  else .ok [] totalJobsSaved

/-- The record pushed by the legacy LIST handler when details are not
collected (src/unnamed/part_001 line 276): the link URL with every other
field `null`. -/
structure LegacyLinkRecord where
  url : String
  title : Option String := none
  company : Option String := none
  location : Option String := none
  description_html : Option Html := none
  description_text : Option String := none

/-- The legacy LIST handler's no-details push loop (src/unnamed/part_001
lines 274-279): when `collectDetails` is false and job links were found,
each link up to the remaining result budget is pushed as a link-only
record. -/
def legacyListPush (collectDetails : Bool) (maxResults totalSaved : Nat)
    (jobLinks : List String) : List LegacyLinkRecord :=
  if !collectDetails && !jobLinks.isEmpty then
    (jobLinks.take (maxResults - totalSaved)).map (fun u => { url := u })
  else []

/-- The legacy DETAIL push (src/unnamed/part_001 lines 299-310): below the
limit, the extracted record is pushed exactly when its title is truthy. -/
def legacyDetailPush (maxResults totalSaved : Nat) (job : Job) : List Job :=
  if maxResults ≤ totalSaved then []
  else if job.title.isSome then [job] else []

/-- One `DETAIL` handler invocation (src/main.js lines 688-716), run
atomically: returns the new saved-count and the pushed records. -/
def detailStep (maxResultsDesired totalJobsSaved : Nat) (doc : Doc)
    (url : String) (now : Int) : Nat × List Job :=
  if maxResultsDesired ≤ totalJobsSaved then (totalJobsSaved, [])
  else
    let job := extractJobDetail doc url now
    if job.title.isSome then (totalJobsSaved + 1, [job]) else (totalJobsSaved, [])

/-- A sequential run of `DETAIL` handler invocations threading the shared
saved-count, returning the final count and the total number of pushes. -/
def runDetailHandlers (maxResultsDesired : Nat) (now : Int) :
    List (Doc × String) → Nat → Nat × Nat
  | [], saved => (saved, 0)
  | (doc, url) :: rest, saved =>
    let st := detailStep maxResultsDesired saved doc url now
    let r := runDetailHandlers maxResultsDesired now rest st.1
    (r.1, st.2.length + r.2)

/-- Interleaved execution of two concurrent `DETAIL` handler invocations.
Each task runs its limit check and extraction synchronously (phase 0), then
suspends at `await Dataset.pushData(job)`; the push completes and
`totalJobsSaved` is incremented when the task is scheduled again (phase 1).
Phases: 0 = not started, 1 = passed the check, suspended at the push,
2 = finished. -/
structure ConcState where
  saved : Nat
  pushed : Nat
  phase1 : Nat
  phase2 : Nat

def concAdvance (maxResultsDesired : Nat) (now : Int) (doc : Doc) (url : String)
    (saved pushed phase : Nat) : Nat × Nat × Nat :=
  match phase with
  | 0 =>
    if maxResultsDesired ≤ saved then (saved, pushed, 2)
    else if (extractJobDetail doc url now).title.isSome then (saved, pushed, 1)
    else (saved, pushed, 2)
  | 1 => (saved + 1, pushed + 1, 2)
  | _ => (saved, pushed, phase)

def concStep (maxResultsDesired : Nat) (now : Int) (d1 d2 : Doc) (u1 u2 : String)
    (st : ConcState) (pickFirst : Bool) : ConcState :=
  if pickFirst then
    let r := concAdvance maxResultsDesired now d1 u1 st.saved st.pushed st.phase1
    { st with saved := r.1, pushed := r.2.1, phase1 := r.2.2 }
  else
    let r := concAdvance maxResultsDesired now d2 u2 st.saved st.pushed st.phase2
    { st with saved := r.1, pushed := r.2.1, phase2 := r.2.2 }

def runSched (maxResultsDesired : Nat) (now : Int) (d1 d2 : Doc) (u1 u2 : String) :
    List Bool → ConcState → ConcState
  | [], st => st
  | pick :: rest, st =>
    runSched maxResultsDesired now d1 d2 u1 u2 rest
      (concStep maxResultsDesired now d1 d2 u1 u2 st pick)

/-! ## Part 7: claim-level inputs (spec-side reader, counterexample documents) -/

/-- Spec-side Structured-Data Reader (modelled from the spec's words, §4.1):
the first job-posting-typed item among all items of all blocks that parse,
`none` when zero blocks parse or zero items match. -/
def specStructuredReader (blocks : List LdBlock) : Option JVal :=
  ((blocks.filterMap id).flatMap itemsOf).find? isJobPosting

def c4GoodItem : JVal := .obj [("@type", .str "JobPosting"), ("title", .str "Asesor de Ventas")]

def jobHasStructuredSalary (j : Job) : Bool :=
  j.salary_currency.isSome || j.salary_period.isSome || j.salary_min.isSome ||
    j.salary_max.isSome || j.salary_amount.isSome

/-- C1 counterexample document: no structured data; the date element holds
text the Date Interpreter cannot parse. -/
def c1Doc : Doc :=
  { h1Text := some "Vendedor de Piso", dateElText := some "Publicado hace un rato" }

/-- C9 counterexample document: a relative date in the date element. -/
def c9Doc : Doc := { h1Text := some "T", dateElText := some "hace 1 día" }

/-- A date text whose interpretation cannot depend on the clock: either the
absolute ISO branch applies, or the relative pattern does not match. -/
def parseStable (s : String) : Bool :=
  match findIso (toLowerStr s) with
  | some m => (jsDateParse m).isSome || (findRelAux (toLowerStr s).data).isNone
  | none => (findRelAux (toLowerStr s).data).isNone

/-- Every date probe of the document is clock-independent. -/
def timeFreeDoc (doc : Doc) : Bool :=
  if (extractFromJsonLd doc.ldBlocks).datePosted ≠ "" then true
  else
    (match doc.dateElText with | some t => parseStable (normText t) | none => true) &&
    (match doc.labeledDate with | some r => parseStable r | none => true)

def c9StableDoc : Doc := { h1Text := some "T", dateElText := some "2024-01-01" }

def c7Doc : Doc := { h1Text := some "Chofer Repartidor" }

def c8Doc : Doc := { hasPasswordInput := true, bodyText := "Escribe tu contraseña" }

def c10Doc : Doc := { h1Text := some "Chofer Repartidor" }

/-- C8 counterexample document for the first revision: a login interstitial
with a password input, no structured data, and the login page's own `h1`. -/
def c8Rev1Doc : Doc :=
  { hasPasswordInput := true, bodyText := "Escribe tu contraseña",
    h1Text := some "Iniciar sesión" }

set_option maxHeartbeats 16000000 in
/-- The year-of-era recovery formula inside `civilOfDoe` is correct on
every day of a (shifted, March-based) year of the 400-year era. -/
theorem year_recover (yoe doy : Int) (h1 : 0 ≤ yoe) (h2 : yoe ≤ 399) (h3 : 0 ≤ doy)
    (h4 : doy ≤ 364 ∨ (doy ≤ 365 ∧ (yoe + 1) % 4 = 0 ∧ ((yoe + 1) % 100 ≠ 0 ∨ yoe = 399))) :
    ((365*yoe + yoe/4 - yoe/100 + doy) - (365*yoe + yoe/4 - yoe/100 + doy)/1460
      + (365*yoe + yoe/4 - yoe/100 + doy)/36524
      - (365*yoe + yoe/4 - yoe/100 + doy)/146096)/365 = yoe := by
  interval_cases yoe <;> omega

/-- Every day-of-era count decomposes as a (shifted) year start plus a
day-of-year within that year's length. -/
theorem cover_aux : ∀ n : Nat, n ≤ 146096 → ∃ yoe doy : Int,
    0 ≤ yoe ∧ yoe ≤ 399 ∧ 0 ≤ doy ∧
    (doy ≤ 364 ∨ (doy ≤ 365 ∧ (yoe + 1) % 4 = 0 ∧ ((yoe + 1) % 100 ≠ 0 ∨ yoe = 399))) ∧
    (n : Int) = 365*yoe + yoe/4 - yoe/100 + doy := by
  intro n
  induction n with
  | zero => intro _; exact ⟨0, 0, by omega⟩
  | succ k ih =>
    intro hk
    obtain ⟨yoe, doy, hy1, hy2, hd1, hd2, heq⟩ := ih (by omega)
    have hj4 : ((yoe+1) % 4 = 0 ∧ (yoe+1)/4 = yoe/4 + 1) ∨
        ((yoe+1) % 4 ≠ 0 ∧ (yoe+1)/4 = yoe/4) := by omega
    have hj100 : ((yoe+1) % 100 = 0 ∧ (yoe+1)/100 = yoe/100 + 1) ∨
        ((yoe+1) % 100 ≠ 0 ∧ (yoe+1)/100 = yoe/100) := by omega
    by_cases hroom : doy + 1 ≤ 364 ∨
        (doy + 1 ≤ 365 ∧ (yoe + 1) % 4 = 0 ∧ ((yoe + 1) % 100 ≠ 0 ∨ yoe = 399))
    · exact ⟨yoe, doy + 1, by omega⟩
    · exact ⟨yoe + 1, 0, by omega⟩

theorem cover (doe : Int) (h1 : 0 ≤ doe) (h2 : doe ≤ 146096) : ∃ yoe doy : Int,
    0 ≤ yoe ∧ yoe ≤ 399 ∧ 0 ≤ doy ∧
    (doy ≤ 364 ∨ (doy ≤ 365 ∧ (yoe + 1) % 4 = 0 ∧ ((yoe + 1) % 100 ≠ 0 ∨ yoe = 399))) ∧
    doe = 365*yoe + yoe/4 - yoe/100 + doy := by
  have := cover_aux doe.toNat (by omega)
  rwa [Int.toNat_of_nonneg h1] at this

set_option maxHeartbeats 1600000 in
/-- Reassembling a year start from the month/day components recovered from a
day-of-year yields the original day count. -/
theorem month_day_assemble (yoe doy : Int) (hy1 : 0 ≤ yoe) (hy2 : yoe ≤ 399)
    (hd1 : 0 ≤ doy) (hd365 : doy ≤ 365) :
    daysFromCivil
      (yoe + (if (if (5*doy+2)/153 < 10 then (5*doy+2)/153 + 3 else (5*doy+2)/153 - 9) ≤ 2
        then 1 else 0))
      (if (5*doy+2)/153 < 10 then (5*doy+2)/153 + 3 else (5*doy+2)/153 - 9)
      (doy - (153*((5*doy+2)/153)+2)/5 + 1)
      = 365*yoe + yoe/4 - yoe/100 + doy - 719468 := by
  have hmp2 : (5*doy + 2)/153 ≤ 11 := by omega
  have hmp0 : 0 ≤ (5*doy + 2)/153 := by omega
  have hd5a : (153*((5*doy+2)/153) + 2)/5 ≤ doy := by omega
  have hd5b : doy - (153*((5*doy+2)/153)+2)/5 ≤ 33 := by omega
  have hj0 : yoe / 400 = 0 := by omega
  have hm0 : yoe % 400 = yoe := by omega
  have hmod1 : ((5*doy+2)/153 + 12) % 12 = (5*doy+2)/153 := by omega
  have hmod2 : ((5*doy+2)/153) % 12 = (5*doy+2)/153 := by omega
  simp only [daysFromCivil]
  split_ifs <;> ring_nf <;> ring_nf at hmod1 hmod2 <;> omega

/-- `daysFromCivil` inverts `civilOfDoe` on one era. -/
theorem civil_base (doe : Int) (hge : 0 ≤ doe) (hlt : doe ≤ 146096) :
    daysFromCivil (civilOfDoe doe).1 (civilOfDoe doe).2.1 (civilOfDoe doe).2.2
      = doe - 719468 := by
  obtain ⟨yoe, doy, hy1, hy2, hd1, hd2, heq⟩ := cover doe hge hlt
  have hrec := year_recover yoe doy hy1 hy2 hd1 hd2
  simp only [civilOfDoe]
  rw [heq]
  simp only [hrec]
  have hdy : (365*yoe + yoe/4 - yoe/100 + doy) - (365*yoe + yoe/4 - yoe/100) = doy := by ring
  simp only [hdy]
  exact month_day_assemble yoe doy hy1 hy2 hd1 (by omega)

theorem daysFromCivil_shift (a y m d : Int) :
    daysFromCivil (a * 400 + y) m d = a * 146097 + daysFromCivil y m d := by
  unfold daysFromCivil
  by_cases h : m ≤ 2 <;> simp only [h, if_true, if_false] <;> omega

theorem civilFromDays_roundtrip (z : Int) :
    daysFromCivil (civilFromDays z).1 (civilFromDays z).2.1 (civilFromDays z).2.2 = z := by
  have hlt : (z + 719468) % 146097 < 146097 := Int.emod_lt_of_pos _ (by norm_num)
  have hge : 0 ≤ (z + 719468) % 146097 := Int.emod_nonneg _ (by norm_num)
  have hb := civil_base ((z + 719468) % 146097) hge (by omega)
  show daysFromCivil ((z + 719468) / 146097 * 400 + (civilOfDoe ((z + 719468) % 146097)).1)
      (civilOfDoe ((z + 719468) % 146097)).2.1
      (civilOfDoe ((z + 719468) % 146097)).2.2 = z
  rw [daysFromCivil_shift, hb]
  omega

/-- `daysFromCivil` is affine in the day argument (`MakeDay` carries an
out-of-range day linearly). -/
theorem daysFromCivil_day_sub (y m d q : Int) :
    daysFromCivil y m (d - q) = daysFromCivil y m d - q := by
  unfold daysFromCivil
  by_cases h : m ≤ 2 <;> simp only [h, if_true, if_false] <;> omega

theorem jsSetDate_getDate_sub (t q : Int) :
    jsSetDate t (jsGetDate t - q) = t - q * msPerDay := by
  unfold jsSetDate jsGetDate
  rw [daysFromCivil_day_sub, civilFromDays_roundtrip]
  unfold msPerDay
  omega

theorem parseAllJsonLd_foldl (blocks : List LdBlock) (acc : List JVal) :
    blocks.foldl (fun acc b =>
      match b with
      | none => acc
      | some v => acc ++ scanItems (itemsOf v)) acc
    = acc ++ blocks.flatMap (fun b =>
        match b with
        | none => []
        | some v => scanItems (itemsOf v)) := by
  induction blocks generalizing acc with
  | nil => simp
  | cons b rest ih =>
    cases b with
    | none => simp [ih]
    | some v => simp [ih]

theorem head?_filter (p : JVal → Bool) (xs : List JVal) :
    (xs.filter p).head? = xs.find? p := by
  induction xs with
  | nil => rfl
  | cons x rest ih =>
    by_cases h : p x
    · simp [List.filter, List.find?, h]
    · simp [List.filter, List.find?, h, ih]

theorem scanItems_nullFree (items : List JVal)
    (h : (items.all fun i => !isNullJ i) = true) :
    scanItems items = items.filter isJobPosting := by
  induction items with
  | nil => rfl
  | cons v rest ih =>
    rw [List.all_cons, Bool.and_eq_true] at h
    have hv : isNullJ v = false := by
      have := h.1
      simpa using this
    rw [scanItems, if_neg (by simp [hv])]
    by_cases hp : isJobPosting v
    · simp [List.filter_cons, hp, ih h.2]
    · simp [List.filter_cons, hp, ih h.2]

theorem flatMap_scan_nullFree (blocks : List LdBlock)
    (hwf : (blocks.all ldBlockNullFree) = true) :
    blocks.flatMap (fun b =>
      match b with
      | none => []
      | some v => scanItems (itemsOf v))
    = ((blocks.filterMap id).flatMap itemsOf).filter isJobPosting := by
  induction blocks with
  | nil => rfl
  | cons b bs ih =>
    rw [List.all_cons, Bool.and_eq_true] at hwf
    cases b with
    | none => simpa using ih hwf.2
    | some v =>
      have h1 : scanItems (itemsOf v) = (itemsOf v).filter isJobPosting :=
        scanItems_nullFree (itemsOf v) hwf.1
      simp [List.flatMap_cons, h1, ih hwf.2, List.filter_append]

/-- C4 amended — an unparsable block is skipped without affecting the scan
of its siblings, and on documents whose parsed blocks contain no `null`
item, `parseAllJsonLd` returns exactly the first job-posting-typed item
across all parsable blocks (`none` when zero parse or zero match).  A
`null` item, however, aborts its own block's item loop (TypeError caught
per block), and the legacy reader scans only the first block
(counterexample). -/
theorem c4_reader_first_match_skip_malformed (rest blocks : List LdBlock)
    (hwf : (blocks.all ldBlockNullFree) = true) :
    parseAllJsonLd (none :: rest) = parseAllJsonLd rest ∧
    parseAllJsonLd blocks = specStructuredReader blocks := by
  constructor
  · rfl
  · show (blocks.foldl _ []).head? = _
    rw [parseAllJsonLd_foldl, List.nil_append, flatMap_scan_nullFree blocks hwf,
      head?_filter]
    rfl

/-- C4 witness — at a concrete block list with no `null` items, the amended
reader equation holds and the hypothesis is discharged by evaluation. -/
theorem c4_amended_witness :
    ([some c4GoodItem].all ldBlockNullFree) = true ∧
    parseAllJsonLd (none :: [some c4GoodItem]) = parseAllJsonLd [some c4GoodItem] ∧
    parseAllJsonLd [some c4GoodItem] = specStructuredReader [some c4GoodItem] :=
  ⟨rfl, (c4_reader_first_match_skip_malformed [some c4GoodItem] [some c4GoodItem] rfl).1,
    (c4_reader_first_match_skip_malformed [some c4GoodItem] [some c4GoodItem] rfl).2⟩

/-- C4 counterexample — the related revision's `extractJsonLd` reads only
the first block: with a malformed first block and a valid job-posting
second block it returns `none`, while `parseAllJsonLd` returns that item.
Moreover a `null` item aborts its block's item loop in both readers: on a
single block `[null, JobPosting]` the code returns `none` although a
matching item is embedded (the spec-side reader returns it). -/
theorem c4_counterexample :
    extractJsonLd [none, some c4GoodItem] = none ∧
    parseAllJsonLd [none, some c4GoodItem] = some c4GoodItem ∧
    parseAllJsonLd [some (.arr [.null, c4GoodItem])] = none ∧
    specStructuredReader [some (.arr [.null, c4GoodItem])] = some c4GoodItem ∧
    isJobPosting c4GoodItem = true :=
  ⟨rfl, rfl, rfl, rfl, rfl⟩

/-- C3 — the structured salary fields and `salary_text` are mutually
exclusive on every record, and `salary_text` can be present only when the
structured compensation normalizer produced nothing. -/
theorem c3_salary_mutually_exclusive (doc : Doc) (url : String) (now : Int) :
    (jobHasStructuredSalary (extractJobDetail doc url now)
      && (extractJobDetail doc url now).salary_text.isSome) = false ∧
    ((extractJobDetail doc url now).salary_text.isSome
      && ((extractFromJsonLd doc.ldBlocks).salary_struct).isSome) = false := by
  simp only [extractJobDetail, jobHasStructuredSalary]
  cases hs : (extractFromJsonLd doc.ldBlocks).salary_struct with
  | none => simp
  | some o => simp

/-- C1 counterexample — on `c1Doc` the emitted record's `datePosted` is the
unparsed literal probe text (which contains no ISO-8601 date pattern at
all), not `null`: the claim "ISO-8601 or null, never the unparsed literal"
is false of the code. -/
theorem c1_counterexample :
    (extractJobDetail c1Doc "https://mx.computrabajo.com/oferta-x" 0).datePosted
      = some "Publicado hace un rato" ∧
    findIso "Publicado hace un rato" = none ∧
    (extractJobDetail c1Doc "https://mx.computrabajo.com/oferta-x" 0).title
      = some "Vendedor de Piso" :=
  ⟨rfl, rfl, rfl⟩

/-- C1 amended — when the structured data yields no date and the date
element's normalized text is non-empty but unparsable, `datePosted` falls
back to that literal text (it is `null` only when no probe yields text). -/
theorem c1_amended_literal_fallback (doc : Doc) (url : String) (now : Int) (t : String)
    (h1 : (extractFromJsonLd doc.ldBlocks).datePosted = "")
    (h2 : doc.dateElText = some t)
    (h3 : normText t ≠ "")
    (h4 : parseSpanishRelativeDateToISO (normText t) now = none) :
    (extractJobDetail doc url now).datePosted = some (normText t) := by
  have hd : dateResolve doc now = normText t := by
    simp only [dateResolve, h1, h2, h4]
    simp [h3]
  simp only [extractJobDetail, hd]
  simp [h3]

theorem c1_amended_witness :
    (extractFromJsonLd c1Doc.ldBlocks).datePosted = "" ∧
    c1Doc.dateElText = some "Publicado hace un rato" ∧
    normText "Publicado hace un rato" ≠ "" ∧
    parseSpanishRelativeDateToISO (normText "Publicado hace un rato") 0 = none ∧
    (extractJobDetail c1Doc "u" 0).datePosted = some (normText "Publicado hace un rato") :=
  ⟨rfl, rfl, by decide, rfl,
    c1_amended_literal_fallback c1Doc "u" 0 "Publicado hace un rato" rfl rfl (by decide) rfl⟩

/-- C9 counterexample — `extractJobDetail` reads the clock: the same
document and URL yield different records at different invocation instants
(the claim of time-independent determinism is false). -/
theorem c9_counterexample :
    (extractJobDetail c9Doc "u" 0).datePosted
      ≠ (extractJobDetail c9Doc "u" msPerDay).datePosted := by
  decide

theorem parse_stable_invariant (s : String) (h : parseStable s = true) (n1 n2 : Int) :
    parseSpanishRelativeDateToISO s n1 = parseSpanishRelativeDateToISO s n2 := by
  unfold parseStable at h
  unfold parseSpanishRelativeDateToISO
  by_cases he : toLowerStr s = ""
  · simp [he]
  · simp only [he, if_false]
    cases hi : findIso (toLowerStr s) with
    | some m =>
      rw [hi] at h
      cases hp : jsDateParse m with
      | some t => simp [hp]
      | none =>
        simp only [hp, Option.isSome_none, Bool.false_or] at h
        cases hr : findRelAux (toLowerStr s).data with
        | some r => rw [hr] at h; simp at h
        | none => simp [hp, hr]
    | none =>
      rw [hi] at h
      cases hr : findRelAux (toLowerStr s).data with
      | some r => rw [hr] at h; simp at h
      | none => simp [hr]

theorem dateResolve_time_free (doc : Doc) (n1 n2 : Int) (h : timeFreeDoc doc = true) :
    dateResolve doc n1 = dateResolve doc n2 := by
  unfold timeFreeDoc at h
  by_cases h1 : (extractFromJsonLd doc.ldBlocks).datePosted ≠ ""
  · simp only [dateResolve]
    simp [h1]
  · rw [if_neg h1] at h
    rw [Bool.and_eq_true] at h
    obtain ⟨hel, hlab⟩ := h
    simp only [dateResolve]
    cases hde : doc.dateElText with
    | some t =>
      rw [hde] at hel
      simp only [hde, parse_stable_invariant (normText t) hel n1 n2]
      cases hld : doc.labeledDate with
      | some r =>
        rw [hld] at hlab
        simp only [hld, parse_stable_invariant r hlab n1 n2]
      | none => simp only [hld]
    | none =>
      simp only [hde]
      cases hld : doc.labeledDate with
      | some r =>
        rw [hld] at hlab
        simp only [hld, parse_stable_invariant r hlab n1 n2]
      | none => simp only [hld]

/-- C9 amended — the extraction core is deterministic in the document, the
URL and the clock instant; and it is clock-independent whenever no date
probe text is interpreted relatively (the JSON-LD date is present, or each
probe text either carries an absolute date or fails the relative pattern). -/
theorem c9_amended_deterministic_given_clock (doc : Doc) (url : String) (n1 n2 : Int)
    (h : timeFreeDoc doc = true) :
    extractJobDetail doc url n1 = extractJobDetail doc url n2 := by
  unfold extractJobDetail
  rw [dateResolve_time_free doc n1 n2 h]

theorem c9_amended_witness :
    timeFreeDoc c9StableDoc = true ∧
    extractJobDetail c9StableDoc "u" 5 = extractJobDetail c9StableDoc "u" 99 :=
  ⟨by decide, c9_amended_deterministic_given_clock c9StableDoc "u" 5 99 (by decide)⟩

/-- C7 amended — every DETAIL-page push carries a truthy title: in the
hardened revision it must additionally pass the block-page guard
(`hasValidData`), in the first revision the push is gated on the title
alone, and the legacy revision's DETAIL path is likewise gated on the
title.  The legacy LIST handler, however, pushes link-only records with a
null title when details are not collected (counterexample). -/
theorem c7_title_required_for_push (maxR saved : Nat) (doc : Doc) (url : String)
    (now : Int) (job : Job) :
    ((defaultHandlerRev2 maxR saved doc url now).pushedList.all
      (fun j => j.title.isSome && titleGuardOk (j.title.getD ""))) = true ∧
    ((defaultHandlerRev1 maxR saved doc url now).pushedList.all
      (fun j => j.title.isSome)) = true ∧
    ((legacyDetailPush maxR saved job).all (fun j => j.title.isSome)) = true := by
  refine ⟨?_, ?_, ?_⟩
  · simp only [defaultHandlerRev2]
    split_ifs with hb hd hlim hjc hguard htitle <;>
      simp_all [HandlerOutcome.pushedList]
  · simp only [defaultHandlerRev1]
    split_ifs with hd hlim htitle <;>
      simp_all [HandlerOutcome.pushedList]
  · simp only [legacyDetailPush]
    split_ifs with hlim htitle <;> simp_all

/-- C7 counterexample — with `collectDetails` false, the legacy LIST
handler (src/unnamed/part_001 lines 274-279) pushes a record whose title is
null, refuting "never yields a pushed record with a null title" for
documents whose details were not collected. -/
theorem c7_counterexample :
    legacyListPush false 100 0 ["https://mx.computrabajo.com/trabajo-de-asesor-1"]
      = [{ url := "https://mx.computrabajo.com/trabajo-de-asesor-1" }] ∧
    ({ url := "https://mx.computrabajo.com/trabajo-de-asesor-1" } : LegacyLinkRecord).title
      = none :=
  ⟨rfl, rfl⟩

/-- C8 amended — in the hardened revision, a document with a password input
(and no structured data) is classified as a blocked interstitial: the
default handler throws the session-rotation error (the retry signal) and
pushes nothing.  The first revision's default handler performs no such
classification (counterexample). -/
theorem c8_password_interstitial (maxR saved : Nat) (doc : Doc) (url : String) (now : Int)
    (hpw : doc.hasPasswordInput = true) (_hld : doc.ldBlocks = []) :
    (defaultHandlerRev2 maxR saved doc url now)
      = .threw "Blocked or redirected to login page - rotating session" ∧
    (defaultHandlerRev2 maxR saved doc url now).pushedList.length = 0 := by
  have hb : isBlockedOrRedirect doc = true := by
    unfold isBlockedOrRedirect
    simp [hpw]
  unfold defaultHandlerRev2
  simp [hb, HandlerOutcome.pushedList]

theorem c8_witness :
    c8Doc.hasPasswordInput = true ∧ c8Doc.ldBlocks = [] ∧
    (defaultHandlerRev2 5 0 c8Doc "https://x/oferta-1" 0)
      = .threw "Blocked or redirected to login page - rotating session" ∧
    (defaultHandlerRev2 5 0 c8Doc "https://x/oferta-1" 0).pushedList.length = 0 :=
  ⟨rfl, rfl, (c8_password_interstitial 5 0 c8Doc "https://x/oferta-1" 0 rfl rfl).1,
    (c8_password_interstitial 5 0 c8Doc "https://x/oferta-1" 0 rfl rfl).2⟩

/-- C8 counterexample — the first revision's default handler (src/main.js
lines 615-647), also cited by the claim, performs no interstitial
classification: the same password-input document with no structured data,
fetched at a detail URL, is not signaled for retry — it is pushed as a job
record whose title is the login page's own `h1`. -/
theorem c8_counterexample :
    c8Rev1Doc.hasPasswordInput = true ∧ c8Rev1Doc.ldBlocks = [] ∧
    (defaultHandlerRev1 5 0 c8Rev1Doc "https://x/oferta-1" 0).isThrew = false ∧
    (defaultHandlerRev1 5 0 c8Rev1Doc "https://x/oferta-1" 0).pushedList.length = 1 ∧
    ((defaultHandlerRev1 5 0 c8Rev1Doc "https://x/oferta-1" 0).pushedList.map
      (fun j => j.title)) = [some "Iniciar sesión"] :=
  ⟨rfl, rfl, rfl, rfl, rfl⟩

/-- C10 counterexample — with the limit set to 1 and two concurrent detail
handlers interleaving at the `await Dataset.pushData` suspension point,
both pass the saved-count check and two records are pushed: the limit is
exceeded, so the claim is false for a concurrent run. -/
theorem c10_counterexample :
    1 < (runSched 1 0 c10Doc c10Doc "https://x/oferta-1" "https://x/oferta-2"
      [true, false, true, false] ⟨0, 0, 0, 0⟩).pushed := by
  decide

theorem runDetailHandlers_invariant (maxR : Nat) (now : Int)
    (docs : List (Doc × String)) : ∀ s : Nat, s ≤ maxR →
    (runDetailHandlers maxR now docs s).1 ≤ maxR ∧
    (runDetailHandlers maxR now docs s).1 = s + (runDetailHandlers maxR now docs s).2 := by
  induction docs with
  | nil => intro s hs; exact ⟨hs, rfl⟩
  | cons du rest ih =>
    obtain ⟨doc, url⟩ := du
    intro s hs
    simp only [runDetailHandlers, detailStep]
    by_cases hlim : maxR ≤ s
    · simp only [hlim, if_true]
      have h := ih s hs
      refine ⟨h.1, ?_⟩
      simp only [List.length_nil]
      omega
    · simp only [hlim, if_false]
      by_cases ht : (extractJobDetail doc url now).title.isSome
      · simp only [ht, if_true]
        have h := ih (s + 1) (by omega)
        refine ⟨h.1, ?_⟩
        simp only [List.length_cons, List.length_nil]
        omega
      · simp only [ht, Bool.false_eq_true, if_false]
        have h := ih s hs
        refine ⟨h.1, ?_⟩
        simp only [List.length_nil]
        omega

/-- C10 amended — in a sequential run (each `DETAIL` handler invocation
atomic) the number of pushed records never exceeds the configured limit,
a handler invoked with the saved-count at or above the limit returns
without pushing, and each push increments the saved-count by exactly one;
under concurrent interleaving the check-then-increment is not atomic and
the bound can be exceeded (see the counterexample). -/
theorem c10_amended_sequential_limit (maxR : Nat) (now : Int)
    (docs : List (Doc × String)) :
    (runDetailHandlers maxR now docs 0).2 ≤ maxR ∧
    (runDetailHandlers maxR now docs 0).1 = (runDetailHandlers maxR now docs 0).2 ∧
    (∀ s : Nat, ∀ doc : Doc, ∀ url : String,
      detailStep maxR (maxR + s) doc url now = (maxR + s, [])) ∧
    (∀ s : Nat, ∀ doc : Doc, ∀ url : String,
      (detailStep maxR s doc url now).1 = s + (detailStep maxR s doc url now).2.length) := by
  refine ⟨?_, ?_, ?_, ?_⟩
  · have h := runDetailHandlers_invariant maxR now docs 0 (Nat.zero_le _)
    omega
  · have h := runDetailHandlers_invariant maxR now docs 0 (Nat.zero_le _)
    omega
  · intro s doc url
    simp only [detailStep]
    simp
  · intro s doc url
    simp only [detailStep]
    split_ifs <;> simp

/-- C6 — the Date Interpreter maps "hace n días/día" to a timestamp exactly
`n` days (in epoch milliseconds) before the interpretation instant, for
n ∈ {1, 2, 15, 30}. -/
theorem c6_relative_days_exact (now : Int) :
    parseSpanishRelativeDateToISO "hace 1 día" now
      = some (toISOString (now - 1 * msPerDay)) ∧
    parseSpanishRelativeDateToISO "hace 2 días" now
      = some (toISOString (now - 2 * msPerDay)) ∧
    parseSpanishRelativeDateToISO "hace 15 días" now
      = some (toISOString (now - 15 * msPerDay)) ∧
    parseSpanishRelativeDateToISO "hace 30 días" now
      = some (toISOString (now - 30 * msPerDay)) := by
  refine ⟨?_, ?_, ?_, ?_⟩
  · have h : parseSpanishRelativeDateToISO "hace 1 día" now
        = some (toISOString (jsSetDate now (jsGetDate now - 1))) := rfl
    rw [h, jsSetDate_getDate_sub]
  · have h : parseSpanishRelativeDateToISO "hace 2 días" now
        = some (toISOString (jsSetDate now (jsGetDate now - 2))) := rfl
    rw [h, jsSetDate_getDate_sub]
  · have h : parseSpanishRelativeDateToISO "hace 15 días" now
        = some (toISOString (jsSetDate now (jsGetDate now - 15))) := rfl
    rw [h, jsSetDate_getDate_sub]
  · have h : parseSpanishRelativeDateToISO "hace 30 días" now
        = some (toISOString (jsSetDate now (jsGetDate now - 30))) := rfl
    rw [h, jsSetDate_getDate_sub]

theorem cleanL_append (xs ys : Html) : cleanL (xs ++ ys) = (cleanL xs && cleanL ys) := by
  induction xs with
  | nil => simp [cleanL]
  | cons n ns ih => simp [cleanL, ih, Bool.and_assoc]

theorem all_filter_self {α : Type} (f : α → Bool) :
    ∀ l : List α, ((l.filter f).all f) = true
  | [] => rfl
  | x :: l => by
    by_cases h : f x = true
    · rw [List.filter_cons_of_pos h, List.all_cons, h, all_filter_self f l]
      rfl
    · rw [List.filter_cons_of_neg (by simp [h])]
      exact all_filter_self f l

mutual
theorem unwrap_cleanN : ∀ n : HNode, cleanL (unwrapN n) = true
  | .text _ => rfl
  | .elem t a ch => by
    simp only [unwrapN]
    by_cases hat : allowedTag t = true
    · rw [if_pos hat]
      simp only [cleanL, cleanN, Bool.and_eq_true]
      exact ⟨⟨⟨hat, all_filter_self _ a⟩, unwrap_cleanL ch⟩, trivial⟩
    · rw [if_neg hat]
      exact unwrap_cleanL ch
theorem unwrap_cleanL : ∀ l : Html, cleanL (unwrapL l) = true
  | [] => rfl
  | n :: ns => by
    rw [unwrapL, cleanL_append, unwrap_cleanN n, unwrap_cleanL ns]
    rfl
end

mutual
theorem clean_noBodyN : ∀ n : HNode, cleanN n = true → findBodyN n = none
  | .text _, _ => rfl
  | .elem t a ch, h => by
    simp only [cleanN, Bool.and_eq_true] at h
    obtain ⟨⟨hat, _⟩, hch⟩ := h
    simp only [findBodyN]
    rw [if_neg, clean_noBodyL ch hch]
    intro he
    subst he
    exact absurd hat (by decide)
theorem clean_noBodyL : ∀ l : Html, cleanL l = true → findBodyL l = none
  | [], _ => rfl
  | n :: ns, h => by
    simp only [cleanL, Bool.and_eq_true] at h
    simp only [findBodyL, clean_noBodyN n h.1, clean_noBodyL ns h.2]
end

/-- The `$('*')` loop unwraps the load scaffold itself (`body` is not
allow-listed), so `$('body')` matches nothing afterwards and
`stripAttrsKeepTags` returns the empty string on every input. -/
theorem strip_empty (h : Html) : stripAttrsKeepTags h = [] := by
  unfold stripAttrsKeepTags
  rw [clean_noBodyL _ (unwrap_cleanL _)]

/-- C5 — the sanitizer is idempotent (re-sanitizing its own output yields
that output unchanged, with no further tag or attribute loss) and no
attribute other than an anchor's `href` survives in its output.  Both hold
degenerately: the `$('*')` loop unwraps the `cheerio.load` scaffold
(including `body` itself), so `$('body').html()` is `null` and the
sanitizer's output is the empty string — hence the empty forest — for
every input. -/
theorem c5_sanitizer_idempotent_only_href (h : Html) :
    stripAttrsKeepTags (stripAttrsKeepTags h) = stripAttrsKeepTags h ∧
    onlyAnchorHrefL (stripAttrsKeepTags h) = true ∧
    stripAttrsKeepTags h = [] := by
  refine ⟨?_, ?_, strip_empty h⟩
  · rw [strip_empty h, strip_empty ([] : Html)]
  · rw [strip_empty h]
    rfl

end CTScraper
